import Mathlib

set_option maxRecDepth 8000

/-!
Shallow embedding of the order-construction and payment-capture pipeline of
the backend (src/backend/index.js).

JavaScript numbers are IEEE-754 binary64 values.  Every double arising in
this program is a finite value of modest magnitude, so each one is modelled
by the exact rational number it denotes, and every JavaScript arithmetic
operation is modelled by exact rational arithmetic followed by `fp64`,
correct rounding to 53 significant bits (round to nearest, ties to even).
Exponent overflow and subnormals are not modelled: every theorem either
evaluates the code at concrete inputs or carries hypotheses that keep all
values far below the overflow range.  Rationals are unreduced fractions (an integer
numerator and a positive natural denominator) so that all computations
reduce inside the Lean kernel.
-/

/-- An unreduced fraction: the exact value of a finite JavaScript number. -/
structure Q where
  num : Int
  den : Nat
  den_pos : 0 < den

def qInt (n : Int) : Q := ⟨n, 1, Nat.one_pos⟩

def Q.add (x y : Q) : Q :=
  ⟨x.num * y.den + y.num * x.den, x.den * y.den, Nat.mul_pos x.den_pos y.den_pos⟩

def Q.mul (x y : Q) : Q :=
  ⟨x.num * y.num, x.den * y.den, Nat.mul_pos x.den_pos y.den_pos⟩

def Q.neg (x : Q) : Q := ⟨-x.num, x.den, x.den_pos⟩

def Q.div (x y : Q) : Q :=
  if h : y.num = 0 then qInt 0
  else ⟨x.num * y.den * y.num.sign, x.den * y.num.natAbs,
        Nat.mul_pos x.den_pos (Int.natAbs_pos.mpr h)⟩

def Q.floor (x : Q) : Int := Int.fdiv x.num x.den

/-- Cross-multiplication comparison (valid because denominators are positive). -/
def Q.ble (x y : Q) : Bool := decide (x.num * y.den ≤ y.num * x.den)

/-- Floor of the base-2 logarithm of a natural number, by fuel recursion so the
kernel can evaluate it.  Correct whenever the (binary) length of the input does
not exceed the fuel. -/
def natLog2F : Nat → Nat → Nat
  | 0, _ => 0
  | f+1, n => if n ≤ 1 then 0 else natLog2F f (n / 2) + 1

def qPow2 (k : Int) : Q :=
  if 0 ≤ k then ⟨(2 : Int) ^ k.toNat, 1, Nat.one_pos⟩
  else ⟨1, 2 ^ (-k).toNat, Nat.pos_pow_of_pos _ (by decide)⟩

/-- Round a rational to the nearest integer, ties to even. -/
def rne (q : Q) : Int :=
  let f := q.floor
  let t : Int := 2 * (q.num - f * q.den)
  if t < (q.den : Int) then f
  else if (q.den : Int) < t then f + 1
  else if f % 2 = 0 then f else f + 1

/-- Floor of the base-2 logarithm of a positive rational.  The raw estimate
from the numerator and denominator logarithms is off by at most one, which the
two comparisons correct. -/
def qLog2 (q : Q) : Int :=
  let a : Int := natLog2F 1200 q.num.natAbs
  let b : Int := natLog2F 1200 q.den
  let e0 := a - b
  if (qPow2 (e0 + 1)).ble q then e0 + 1
  else if (qPow2 e0).ble q then e0
  else e0 - 1

/-- Correctly round a positive rational to 53 significant bits. -/
def fp64Pos (q : Q) : Q :=
  let e := qLog2 q
  let scale := qPow2 (52 - e)
  Q.div (qInt (rne (Q.mul q scale))) scale

/-- The binary64 value nearest to a rational (ties to even): the result of any
correctly rounded IEEE-754 double operation whose exact result is that
rational. -/
def fp64 (q : Q) : Q :=
  if q.num = 0 then qInt 0
  else if q.num < 0 then Q.neg (fp64Pos (Q.neg q))
  else fp64Pos q

def jsAdd (x y : Q) : Q := fp64 (Q.add x y)
def jsMul (x y : Q) : Q := fp64 (Q.mul x y)
def jsDiv (x y : Q) : Q := fp64 (Q.div x y)

/-- ECMAScript Math.round: the integer nearest to the argument, ties rounding
toward positive infinity; equals the floor of the argument plus one half. -/
def jsMathRound (q : Q) : Int := Int.fdiv (2 * q.num + q.den) (2 * q.den)

/-- The double denoted by a decimal literal n/d in the JavaScript source or in
a JSON request body (JSON numbers parse to the nearest double). -/
def dbl (n : Int) (d : Nat) (h : 0 < d) : Q := fp64 ⟨n, d, h⟩

/-- Decimal digits of a natural number, most significant first, by fuel
recursion; models the decimal rendering JavaScript uses for integers below
10^21 (at or above 10^21 JavaScript switches to exponential notation, which
jsBigToString models). -/
def natToStrL (n : Nat) : List Char := aux (n+1) n
where aux : Nat → Nat → List Char
  | 0, _ => []
  | f+1, n => if n < 10 then [Nat.digitChar n] else aux f (n / 10) ++ [Nat.digitChar (n % 10)]

def natToStr (n : Nat) : String := String.mk (natToStrL n)

/-- Render a nonnegative number of cents as a 2-decimal string. -/
def centsRender (m : Nat) : String :=
  String.mk (natToStrL (m / 100) ++ '.' :: [Nat.digitChar (m % 100 / 10), Nat.digitChar (m % 100 % 10)])

/-- ECMAScript toFixed(2) below the 10^21 threshold: the integer n minimizing
the distance of n/100 to the argument, larger n on ties, i.e. the floor of
100x + 1/2. -/
def fixN (q : Q) : Int := Int.fdiv (200 * q.num + q.den) (2 * q.den)

def qPow10 (j : Nat) : Q := ⟨(10 : Int) ^ j, 1, Nat.one_pos⟩

/-- Equality of the rational values of two fractions (cross multiplication;
valid because denominators are positive). -/
def Q.beq (x y : Q) : Bool := decide (x.num * y.den = y.num * x.den)

/-- Digit-count search of ECMAScript Number::toString: the least k such that
some k-digit integer s makes s * 10^(n-k) round back to the double q; s is
the grid point nearest to q, ties to even, which lies in the rounding
interval of q whenever any k-digit grid point does. -/
def shortestKAux (q : Q) (n : Nat) : Nat → Nat → Nat
  | 0, k => k
  | fuel+1, k =>
    let s := rne (Q.div q (qPow10 (n - k)))
    if (10 : Int) ^ (k - 1) ≤ s ∧ s < (10 : Int) ^ k ∧
        Q.beq (fp64 (Q.mul (qInt s) (qPow10 (n - k)))) q = true then k
    else shortestKAux q n fuel (k+1)

/-- ECMAScript Number::toString for a positive double at or above 10^21.
Such doubles are integers, and ToString renders the shortest digit sequence
s that rounds back to the double, in exponential notation. -/
def jsBigToString (q : Q) : String :=
  let m := q.floor.toNat
  let n := (natToStrL m).length
  let k := shortestKAux q n n 1
  let sd := natToStrL (rne (Q.div q (qPow10 (n - k)))).toNat
  let body : List Char :=
    match sd with
    | [] => []
    | [d] => [d]
    | d :: rest => d :: '.' :: rest
  String.mk body ++ "e+" ++ natToStr (n - 1)

/-- ECMAScript toFixed(2) on a nonnegative double: ToString (exponential
notation) at or above 10^21, fixed 2-decimal notation below it. -/
def toFixed2Pos (q : Q) : String :=
  if (qInt (10 ^ 21)).ble q then jsBigToString q
  else centsRender (fixN q).toNat

def toFixed2 (q : Q) : String :=
  if q.num < 0 then "-" ++ toFixed2Pos (Q.neg q) else toFixed2Pos q

/-- The double Math.round(Number(value || 0) * 100) / 100 of source line 39.
All call sites pass a finite number, so Number(value || 0) is the identity
except that it maps 0 (falsy) to 0. -/
def roundedAmount (value : Q) : Q :=
  let v := if value.num = 0 then qInt 0 else value
  jsDiv (qInt (jsMathRound (jsMul v (qInt 100)))) (qInt 100)

/-- Source line 39: (Math.round(Number(value || 0) * 100) / 100).toFixed(2). -/
def amountToString (value : Q) : String := toFixed2 (roundedAmount value)

/-- The cent-rounded amount stays below 10^21, the threshold at which
ECMAScript toFixed abandons fixed 2-decimal notation for exponential
ToString notation. -/
def amountFitsFixed (v : Q) : Prop := (qInt (10 ^ 21)).ble (roundedAmount v) = false

instance (v : Q) : Decidable (amountFitsFixed v) :=
  inferInstanceAs (Decidable ((qInt (10 ^ 21)).ble (roundedAmount v) = false))

/-- JavaScript Number(s) for the strings this program produces itself
(decimal digits with an optional fraction part): the nearest double. -/
def digitsToNat (l : List Char) : Nat := l.foldl (fun a c => 10 * a + (c.toNat - 48)) 0

def jsParseNumber (s : String) : Q :=
  let l := s.data
  let ip := l.takeWhile (fun c => c ≠ '.')
  let fp := (l.dropWhile (fun c => c ≠ '.')).drop 1
  fp64 (Q.add (qInt (digitsToNat ip))
              ⟨digitsToNat fp, 10 ^ fp.length, Nat.pos_pow_of_pos _ (by decide)⟩)

/-! ## Data model -/

/-- A JavaScript number as seen by the validation code: finite, or one of the
non-finite values Number can produce. -/
inductive JsNum
  | nan
  | posinf
  | neginf
  | fin (q : Q)

/-- A raw cart line item from the request body.  Absent JSON fields are none. -/
structure RawItem where
  id : Option String
  name : Option String
  price : Option JsNum
  quantity : Option JsNum
  category : Option String

/-- The items value of the request body: absent, present but not an array,
or an array of items. -/
inductive CartInput
  | missing
  | notArray
  | arr (items : List RawItem)

structure UnitAmount where
  currency_code : String
  value : String
deriving DecidableEq

structure NormalizedItem where
  reference_id : String
  name : String
  quantity : String
  category : String
  unit_amount : UnitAmount
deriving DecidableEq

/-- PAYPAL_CURRENCY with its default environment value. -/
def PAYPAL_CURRENCY : String := "USD"

def BRAND_NAME : String := "Payment Sample Store"

/-- JavaScript String.prototype.trim on the character list of a string. -/
def isWsChar (c : Char) : Bool :=
  c = ' ' || c = '\t' || c = '\n' || c = '\r' || c = '\x0b' || c = '\x0c'

def jsTrim (s : String) : String :=
  String.mk (((s.data.dropWhile isWsChar).reverse.dropWhile isWsChar).reverse)

/-- Number(item.price ?? 0) is finite and positive (source line 54 negated). -/
def priceOkB (it : RawItem) : Bool :=
  match it.price with
  | none => false
  | some (JsNum.fin q) => decide (0 < q.num)
  | some _ => false

/-- Number(item.quantity ?? 1) is a positive integer (source line 57 negated). -/
def qtyOkB (it : RawItem) : Bool :=
  match it.quantity with
  | none => true
  | some (JsNum.fin q) => decide (q.num % (q.den : Int) = 0 ∧ 0 < q.num)
  | some _ => false

def nameOkB (it : RawItem) : Bool :=
  match it.name with
  | none => false
  | some s => decide (jsTrim s ≠ "")

def itemValidB (it : RawItem) : Bool := nameOkB it && priceOkB it && qtyOkB it

/-- The finite value of Number(item.price ?? 0); only used on valid items. -/
def priceVal (it : RawItem) : Q :=
  match it.price with
  | some (JsNum.fin q) => q
  | _ => qInt 0

/-- The integer value of Number(item.quantity ?? 1); only used on valid items. -/
def qtyVal (it : RawItem) : Nat :=
  match it.quantity with
  | none => 1
  | some (JsNum.fin q) => (q.num / (q.den : Int)).toNat
  | some _ => 0

def missingNameMsg (i : Nat) : String :=
  "Item #" ++ natToStr (i+1) ++ " is missing a name."

def invalidPriceMsg (t : String) : String :=
  "Item \"" ++ t ++ "\" has an invalid price."

def invalidQtyMsg (t : String) : String :=
  "Item \"" ++ t ++ "\" has an invalid quantity."

/-- The provider-ready item built from a valid raw item at 0-based index i
(source lines 61-71). -/
def normValid (i : Nat) (it : RawItem) : NormalizedItem :=
  { reference_id := it.id.getD ("ITEM-" ++ natToStr (i+1))
    name := jsTrim (it.name.getD "")
    quantity := natToStr (qtyVal it)
    category := it.category.getD "DIGITAL_GOODS"
    unit_amount := ⟨PAYPAL_CURRENCY, amountToString (priceVal it)⟩ }

/-- Validation and conversion of one item (the body of the map at source
lines 46-71); checks run in source order: name, then price, then quantity. -/
def normOne (i : Nat) (it : RawItem) : Except String NormalizedItem :=
  match it.name with
  | none => Except.error (missingNameMsg i)
  | some s =>
    let t := jsTrim s
    if t = "" then Except.error (missingNameMsg i)
    else if priceOkB it = false then Except.error (invalidPriceMsg t)
    else if qtyOkB it = false then Except.error (invalidQtyMsg t)
    else Except.ok (normValid i it)

/-- The message normOne fails with on an invalid item. -/
def itemErrMsg (i : Nat) (it : RawItem) : String :=
  match it.name with
  | none => missingNameMsg i
  | some s =>
    let t := jsTrim s
    if t = "" then missingNameMsg i
    else if priceOkB it = false then invalidPriceMsg t
    else invalidQtyMsg t

/-- Mapping of the validating body over the items: JavaScript map runs left
to right and a throw aborts the whole map, so the embedding aborts at the
first error. -/
def normMap : Nat → List RawItem → Except String (List NormalizedItem)
  | _, [] => Except.ok []
  | i, it :: rest =>
    match normOne i it with
    | Except.error e => Except.error e
    | Except.ok n =>
      match normMap (i+1) rest with
      | Except.error e => Except.error e
      | Except.ok ns => Except.ok (n :: ns)

/-- Source lines 41-72. -/
def normalizeItems : CartInput → Except String (List NormalizedItem)
  | CartInput.missing => Except.error "Missing cart items."
  | CartInput.notArray => Except.error "Missing cart items."
  | CartInput.arr [] => Except.error "Missing cart items."
  | CartInput.arr l => normMap 0 l

/-- The pure mapping applied when every item is valid. -/
def normValidList : Nat → List RawItem → List NormalizedItem
  | _, [] => []
  | i, it :: rest => normValid i it :: normValidList (i+1) rest

/-- Source line 74: items.reduce((sum, item) =>
sum + Number(item.unit_amount.value) * Number(item.quantity), 0). -/
def cartSum (items : List NormalizedItem) : Q :=
  items.foldl
    (fun sum it => jsAdd sum (jsMul (jsParseNumber it.unit_amount.value) (jsParseNumber it.quantity)))
    (qInt 0)

def calculateOrderTotal (items : List NormalizedItem) : String :=
  amountToString (cartSum items)

/-! ## Order request payload (source lines 169-191) -/

structure Money where
  currency_code : String
  value : String
deriving DecidableEq

structure Breakdown where
  item_total : Money
deriving DecidableEq

structure PUAmount where
  currency_code : String
  value : String
  breakdown : Breakdown
deriving DecidableEq

structure PurchaseUnitReq where
  amount : PUAmount
  items : List NormalizedItem
deriving DecidableEq

structure AppContext where
  shipping_preference : String
  user_action : String
  brand_name : String
deriving DecidableEq

structure OrderPayload where
  intent : String
  purchase_units : List PurchaseUnitReq
  application_context : AppContext
deriving DecidableEq

def orderPayload (items : List NormalizedItem) : OrderPayload :=
  let total := calculateOrderTotal items
  { intent := "CAPTURE"
    purchase_units :=
      [{ amount :=
           { currency_code := PAYPAL_CURRENCY
             value := total
             breakdown := { item_total := { currency_code := PAYPAL_CURRENCY, value := total } } }
         items := items }]
    application_context := ⟨"NO_SHIPPING", "PAY_NOW", BRAND_NAME⟩ }

/-! ## Capture payload and summary (source lines 123-154) -/

structure CaptureItem where
  name : Option String
deriving DecidableEq

structure CaptureAmount where
  currency_code : Option String
  value : Option String
deriving DecidableEq

structure CaptureEntry where
  id : Option String
  status : Option String
  amount : Option CaptureAmount
  create_time : Option String
  update_time : Option String
deriving DecidableEq

structure Payments where
  captures : Option (List CaptureEntry)
deriving DecidableEq

structure PurchaseUnitResp where
  payments : Option Payments
  items : Option (List CaptureItem)
deriving DecidableEq

structure PayerName where
  given_name : Option String
  surname : Option String
deriving DecidableEq

structure Payer where
  email_address : Option String
  name : Option PayerName
deriving DecidableEq

structure CapturePayload where
  id : Option String
  purchase_units : Option (List PurchaseUnitResp)
  payer : Option Payer
deriving DecidableEq

structure CaptureSummary where
  orderId : Option String
  captureId : Option String
  status : Option String
  payerEmail : Option String
  payerGivenName : Option String
  payerSurname : Option String
  amount : Option String
  currency : Option String
  items : List CaptureItem
  createTime : Option String
  updateTime : Option String
deriving DecidableEq

/-- Source lines 123-139; optional chaining becomes Option.bind and the
?? [] default on items becomes getD. -/
def extractCaptureSummary (p : CapturePayload) : CaptureSummary :=
  let purchaseUnit := p.purchase_units.bind List.head?
  let capture :=
    ((purchaseUnit.bind (fun u => u.payments)).bind (fun pay => pay.captures)).bind List.head?
  { orderId := p.id
    captureId := capture.bind (fun c => c.id)
    status := capture.bind (fun c => c.status)
    payerEmail := p.payer.bind (fun py => py.email_address)
    payerGivenName := (p.payer.bind (fun py => py.name)).bind (fun nm => nm.given_name)
    payerSurname := (p.payer.bind (fun py => py.name)).bind (fun nm => nm.surname)
    amount := (capture.bind (fun c => c.amount)).bind (fun a => a.value)
    currency := (capture.bind (fun c => c.amount)).bind (fun a => a.currency_code)
    items := (purchaseUnit.bind (fun u => u.items)).getD []
    createTime := capture.bind (fun c => c.create_time)
    updateTime := capture.bind (fun c => c.update_time) }

def emptyCapturePayload : CapturePayload := ⟨none, none, none⟩

/-- The payload with everything after the first purchase unit and after the
first capture entry of that unit removed. -/
def truncateUnit (u : PurchaseUnitResp) : PurchaseUnitResp :=
  { u with payments := u.payments.map (fun pay => { pay with captures := pay.captures.map (fun cs => cs.take 1) }) }

def truncatePayload (p : CapturePayload) : CapturePayload :=
  { p with purchase_units := p.purchase_units.map (fun us => (us.take 1).map truncateUnit) }

structure TransactionRecord where
  summary : CaptureSummary
  loggedAt : String
  raw : CapturePayload
deriving DecidableEq

/-- Outcome of the filesystem operations inside persistCapture. -/
inductive FsOutcome
  | ok
  | mkdirFail
  | appendFail

/-- Source lines 141-154.  The try/catch swallows every filesystem failure,
so the function is total and returns what was appended (if anything); now is
the new Date().toISOString() timestamp. -/
def persistCapture (fs : FsOutcome) (now : String) (p : CapturePayload) : Option TransactionRecord :=
  match fs with
  | FsOutcome.ok => some ⟨extractCaptureSummary p, now, p⟩
  | FsOutcome.mkdirFail => none
  | FsOutcome.appendFail => none

/-! ## Gateway client and HTTP handlers (source lines 76-121, 164-223) -/

inductive GatewayCall
  | token
  | createOrder (payload : OrderPayload)
  | capture (orderId : String)
deriving DecidableEq

/-- Parsed JSON body of a failed gateway response (possibly empty). -/
structure ErrBody where
  message : Option String
deriving DecidableEq

structure CreateResp where
  id : Option String
deriving DecidableEq

/-- One round of behavior of the external gateway, fixed per request. -/
structure Gateway where
  credsPresent : Bool
  tokenOk : Bool
  accessToken : String
  tokenFailStatus : Nat
  tokenFailBody : String
  createResult : OrderPayload → Except ErrBody CreateResp
  captureResult : String → Except ErrBody CapturePayload

inductive RespBody
  | createJson (id : Option String)
  | captureJson (p : CapturePayload)
  | errJson (message : String) (paypal : Option ErrBody)
deriving DecidableEq

structure HttpResponse where
  status : Nat
  body : RespBody
deriving DecidableEq

/-- Source lines 76-99: throws before any network call when credentials are
missing, otherwise performs the token request. -/
def tokenStep (gw : Gateway) : Except String String :=
  if gw.credsPresent = false then Except.error "Missing PayPal credentials."
  else if gw.tokenOk = false then
    Except.error ("Failed to authenticate with PayPal: " ++ natToStr gw.tokenFailStatus ++ " " ++ gw.tokenFailBody)
  else Except.ok gw.accessToken

/-- The network calls generateAccessToken makes. -/
def gwTokenCalls (gw : Gateway) : List GatewayCall :=
  if gw.credsPresent then [GatewayCall.token] else []

/-- Source line 115: responseBody?.message || "PayPal API error.". -/
def gwErrMessage (eb : ErrBody) : String :=
  match eb.message with
  | some m => if m = "" then "PayPal API error." else m
  | none => "PayPal API error."

/-- Source lines 216-223.  No error raised anywhere in this program ever
carries a status property, so err.status || 500 is always 500; the message is
always nonempty, so err.message || "Unexpected server error." keeps it. -/
def errorMiddleware (message : String) (paypal : Option ErrBody) : HttpResponse :=
  ⟨500, RespBody.errJson (if message = "" then "Unexpected server error." else message) paypal⟩

/-- Source lines 164-201: POST /api/orders.  Returns the gateway calls made
and the HTTP response. -/
def postOrders (gw : Gateway) (body : CartInput) : List GatewayCall × HttpResponse :=
  match normalizeItems body with
  | Except.error msg => ([], errorMiddleware msg none)
  | Except.ok items =>
    let payload := orderPayload items
    match tokenStep gw with
    | Except.error m => (gwTokenCalls gw, errorMiddleware m none)
    | Except.ok _tok =>
      match gw.createResult payload with
      | Except.error eb =>
        ([GatewayCall.token, GatewayCall.createOrder payload],
         errorMiddleware (gwErrMessage eb) (some eb))
      | Except.ok resp =>
        ([GatewayCall.token, GatewayCall.createOrder payload],
         ⟨201, RespBody.createJson resp.id⟩)

/-- Source lines 203-214: POST /api/orders/:orderId/capture.  Returns the
gateway calls made, the HTTP response, and the record appended to the
transaction log (if any). -/
def postCapture (gw : Gateway) (fs : FsOutcome) (now : String) (orderId : String) :
    List GatewayCall × HttpResponse × Option TransactionRecord :=
  match tokenStep gw with
  | Except.error m => (gwTokenCalls gw, errorMiddleware m none, none)
  | Except.ok _tok =>
    match gw.captureResult orderId with
    | Except.error eb =>
      ([GatewayCall.token, GatewayCall.capture orderId],
       errorMiddleware (gwErrMessage eb) (some eb), none)
    | Except.ok p =>
      ([GatewayCall.token, GatewayCall.capture orderId],
       ⟨200, RespBody.captureJson p⟩, persistCapture fs now p)

/-! ## Specification-side definitions used only to state claims -/

/-- Modelled from the spec: the regular expression d+ dot dd as a
decidable check on the character list of a string. -/
def matchesAmountRegex (s : String) : Bool :=
  let l := s.data
  decide (4 ≤ l.length) &&
  (l.take (l.length - 3)).all Char.isDigit &&
  (match l.drop (l.length - 3) with
   | ['.', d1, d2] => d1.isDigit && d2.isDigit
   | _ => false)

/-- Modelled from the spec: round-half-up on price * 100 computed exactly on
the decimal price, rendered to two decimals.  Stated only to compare the
specified rounding rule with what the code computes. -/
def specHalfUpValue (q : Q) : String :=
  centsRender (Int.toNat (Int.fdiv (200 * q.num + q.den) (2 * q.den)))

/-- A cart is malformed when items are missing, not an array, empty, or some
item fails validation. -/
def malformedCart : CartInput → Prop
  | CartInput.missing => True
  | CartInput.notArray => True
  | CartInput.arr [] => True
  | CartInput.arr l => ∃ it ∈ l, itemValidB it = false

instance : (ci : CartInput) → Decidable (malformedCart ci)
  | CartInput.missing => isTrue trivial
  | CartInput.notArray => isTrue trivial
  | CartInput.arr [] => isTrue trivial
  | CartInput.arr (it :: l) =>
    inferInstanceAs (Decidable (∃ x ∈ it :: l, itemValidB x = false))

def allValid (l : List RawItem) : Prop := ∀ it ∈ l, itemValidB it = true

instance (l : List RawItem) : Decidable (allValid l) :=
  inferInstanceAs (Decidable (∀ it ∈ l, itemValidB it = true))

def is4xx (n : Nat) : Prop := 400 ≤ n ∧ n < 500

instance (n : Nat) : Decidable (is4xx n) :=
  inferInstanceAs (Decidable (400 ≤ n ∧ n < 500))

/-! ## Concrete fixtures used by witnesses and counterexamples -/

def itemA10 : RawItem :=
  ⟨none, some "A", some (JsNum.fin (dbl 10 1 (by decide))), some (JsNum.fin (qInt 2)), none⟩

def itemB5005 : RawItem :=
  ⟨none, some "B", some (JsNum.fin (dbl 5005 1000 (by decide))), some (JsNum.fin (qInt 1)), none⟩

def itemC1005 : RawItem :=
  ⟨none, some "C", some (JsNum.fin (dbl 1005 1000 (by decide))), some (JsNum.fin (qInt 1)), none⟩

def itemPlan39 : RawItem :=
  ⟨none, some "Startup Plan (Yearly)", some (JsNum.fin (dbl 39 1 (by decide))),
   some (JsNum.fin (qInt 1)), none⟩

def itemBadPrice : RawItem :=
  ⟨none, some "Broken", some (JsNum.fin (qInt 0)), some (JsNum.fin (qInt 1)), none⟩

def cartAB : List RawItem := [itemA10, itemB5005]

def itemWithId : RawItem :=
  ⟨some "SKU-7", some "D", some (JsNum.fin (qInt 2)), none, none⟩

/-- A valid item whose price 2^70 (an exactly representable double of about
1.18e21) drives toFixed into its exponential-notation branch. -/
def itemHuge : RawItem :=
  ⟨none, some "A", some (JsNum.fin (dbl (2 ^ 70) 1 (by decide))), some (JsNum.fin (qInt 1)), none⟩

def cartID : List RawItem := [itemWithId, itemPlan39]

/-- A gateway stub whose order creation succeeds with id ORDER1. -/
def gwStub : Gateway :=
  { credsPresent := true
    tokenOk := true
    accessToken := "TOK"
    tokenFailStatus := 0
    tokenFailBody := ""
    createResult := fun _ => Except.ok ⟨some "ORDER1"⟩
    captureResult := fun _ => Except.error ⟨none⟩ }

/-- The capture payload of the end-to-end scenario in the spec. -/
def capPayload1 : CapturePayload :=
  { id := some "O1"
    purchase_units :=
      some [{ payments :=
                some { captures :=
                         some [{ id := some "C1", status := some "COMPLETED"
                                 amount := some { currency_code := some "USD", value := some "39.00" }
                                 create_time := none, update_time := none }] }
              items := none }]
    payer := none }

/-- A gateway stub whose capture succeeds with capPayload1. -/
def gwCap : Gateway :=
  { gwStub with captureResult := fun _ => Except.ok capPayload1 }

/-! ## Helper lemmas -/

theorem digitChar_isDigit (n : Nat) (h : n < 10) : (Nat.digitChar n).isDigit = true := by
  interval_cases n <;> decide

theorem natToStrL_aux_all_digits : ∀ f n, (natToStrL.aux f n).all Char.isDigit = true := by
  intro f
  induction f with
  | zero => intro n; simp [natToStrL.aux]
  | succ f ih =>
    intro n
    by_cases h : n < 10
    · simp [natToStrL.aux, h, digitChar_isDigit n h]
    · have h10 : n % 10 < 10 := Nat.mod_lt _ (by decide)
      simp [natToStrL.aux, h, List.all_append, ih, digitChar_isDigit _ h10]

theorem natToStrL_aux_ne_nil (f n : Nat) : natToStrL.aux (f+1) n ≠ [] := by
  by_cases h : n < 10
  · simp [natToStrL.aux, h]
  · simp [natToStrL.aux, h]

theorem natToStrL_all_digits (n : Nat) : (natToStrL n).all Char.isDigit = true :=
  natToStrL_aux_all_digits (n+1) n

theorem natToStrL_ne_nil (n : Nat) : natToStrL n ≠ [] :=
  natToStrL_aux_ne_nil n n

theorem matchesAmountRegex_mk (A : List Char) (hA : A ≠ []) (hd : A.all Char.isDigit = true)
    (d1 d2 : Char) (h1 : d1.isDigit = true) (h2 : d2.isDigit = true) :
    matchesAmountRegex (String.mk (A ++ '.' :: [d1, d2])) = true := by
  have hA1 : 0 < A.length := List.length_pos.mpr hA
  have hlen : (A ++ '.' :: [d1, d2]).length = A.length + 3 := by simp
  show (decide (4 ≤ (A ++ '.' :: [d1, d2]).length) && _ && _) = true
  rw [hlen]
  have h3 : A.length + 3 - 3 = A.length := by omega
  rw [h3, List.take_left, List.drop_left]
  simp [hd, h1, h2]
  omega

theorem matchesAmountRegex_centsRender (m : Nat) :
    matchesAmountRegex (centsRender m) = true := by
  have hm : m % 100 < 100 := Nat.mod_lt _ (by decide)
  exact matchesAmountRegex_mk _ (natToStrL_ne_nil _) (natToStrL_all_digits _) _ _
    (digitChar_isDigit _ (by omega)) (digitChar_isDigit _ (Nat.mod_lt _ (by decide)))

theorem toFixed2_of_nonneg (q : Q) (h : 0 ≤ q.num)
    (hfit : (qInt (10 ^ 21)).ble q = false) :
    toFixed2 q = centsRender (fixN q).toNat := by
  have h1 : toFixed2 q = toFixed2Pos q := by
    unfold toFixed2
    exact if_neg (not_lt.mpr h)
  rw [h1]
  unfold toFixed2Pos
  rw [hfit]
  rfl

theorem fdiv_nonneg_of_nonneg (a b : Int) (ha : 0 ≤ a) (hb : 0 ≤ b) : 0 ≤ Int.fdiv a b := by
  rw [Int.fdiv_eq_ediv _ hb]
  exact Int.ediv_nonneg ha hb

theorem Qfloor_nonneg (q : Q) (h : 0 ≤ q.num) : 0 ≤ q.floor :=
  fdiv_nonneg_of_nonneg _ _ h (Int.natCast_nonneg _)

theorem rne_nonneg (q : Q) (h : 0 ≤ q.num) : 0 ≤ rne q := by
  have hf : 0 ≤ q.floor := Qfloor_nonneg q h
  simp only [rne]
  split
  · exact hf
  · split
    · omega
    · split <;> omega

theorem qPow2_num_pos (k : Int) : 0 < (qPow2 k).num := by
  by_cases h : 0 ≤ k
  · simp only [qPow2, if_pos h]
    exact pow_pos (by decide) _
  · simp [qPow2, if_neg h]

theorem Qmul_num_nonneg (x y : Q) (hx : 0 ≤ x.num) (hy : 0 ≤ y.num) : 0 ≤ (Q.mul x y).num :=
  mul_nonneg hx hy

theorem Qdiv_num_nonneg (x y : Q) (hx : 0 ≤ x.num) (hy : 0 < y.num) : 0 ≤ (Q.div x y).num := by
  simp only [Q.div, dif_neg (ne_of_gt hy)]
  rw [Int.sign_eq_one_iff_pos.mpr hy, mul_one]
  exact mul_nonneg hx (Int.natCast_nonneg _)

theorem fp64Pos_num_nonneg (q : Q) (h : 0 ≤ q.num) : 0 ≤ (fp64Pos q).num := by
  simp only [fp64Pos]
  exact Qdiv_num_nonneg _ _
    (rne_nonneg _ (Qmul_num_nonneg _ _ h (le_of_lt (qPow2_num_pos _)))) (qPow2_num_pos _)

theorem fp64_num_nonneg (q : Q) (h : 0 ≤ q.num) : 0 ≤ (fp64 q).num := by
  simp only [fp64]
  split
  · simp [qInt]
  · split
    · omega
    · exact fp64Pos_num_nonneg q h

theorem jsMathRound_nonneg (q : Q) (h : 0 ≤ q.num) : 0 ≤ jsMathRound q :=
  fdiv_nonneg_of_nonneg _ _ (by positivity) (by positivity)

theorem roundedAmount_nonneg (v : Q) (h : 0 ≤ v.num) : 0 ≤ (roundedAmount v).num := by
  simp only [roundedAmount]
  have hv0 : 0 ≤ (if v.num = 0 then qInt 0 else v).num := by
    split
    · simp [qInt]
    · exact h
  have h1 : 0 ≤ (jsMul (if v.num = 0 then qInt 0 else v) (qInt 100)).num :=
    fp64_num_nonneg _ (Qmul_num_nonneg _ _ hv0 (by simp [qInt]))
  exact fp64_num_nonneg _
    (Qdiv_num_nonneg _ _ (by simpa [qInt] using jsMathRound_nonneg _ h1) (by simp [qInt]))

theorem amountToString_matches (v : Q) (h : 0 ≤ v.num) (hfit : amountFitsFixed v) :
    matchesAmountRegex (amountToString v) = true := by
  rw [amountToString, toFixed2_of_nonneg _ (roundedAmount_nonneg v h) hfit]
  exact matchesAmountRegex_centsRender _

theorem priceVal_pos (it : RawItem) (h : priceOkB it = true) : 0 < (priceVal it).num := by
  unfold priceOkB at h
  unfold priceVal
  split at h
  · exact absurd h (by decide)
  · rename_i q hq
    rw [hq]
    exact of_decide_eq_true h
  · exact absurd h (by decide)

theorem itemValidB_parts (it : RawItem) (h : itemValidB it = true) :
    nameOkB it = true ∧ priceOkB it = true ∧ qtyOkB it = true := by
  simpa [itemValidB, Bool.and_eq_true, and_assoc] using h

theorem normOne_ok (i : Nat) (it : RawItem) (h : itemValidB it = true) :
    normOne i it = Except.ok (normValid i it) := by
  obtain ⟨hn, hp, hq⟩ := itemValidB_parts it h
  cases hname : it.name with
  | none => simp [nameOkB, hname] at hn
  | some s =>
    have ht : jsTrim s ≠ "" := by
      rw [nameOkB, hname] at hn
      exact of_decide_eq_true hn
    simp [normOne, hname, ht, hp, hq]

theorem normOne_err (i : Nat) (it : RawItem) (h : itemValidB it = false) :
    normOne i it = Except.error (itemErrMsg i it) := by
  cases hname : it.name with
  | none => simp [normOne, itemErrMsg, hname]
  | some s =>
    by_cases ht : jsTrim s = ""
    · simp [normOne, itemErrMsg, hname, ht]
    · by_cases hp : priceOkB it = false
      · simp [normOne, itemErrMsg, hname, ht, hp]
      · have hp2 : priceOkB it = true := by
          cases hpb : priceOkB it
          · exact absurd hpb hp
          · rfl
        have hq : qtyOkB it = false := by
          rw [itemValidB, nameOkB, hname, hp2] at h
          simpa [decide_eq_true_eq, ht] using h
        simp [normOne, itemErrMsg, hname, ht, hp2, hq]

theorem normMap_ok : ∀ (l : List RawItem) (i : Nat), (∀ it ∈ l, itemValidB it = true) →
    normMap i l = Except.ok (normValidList i l) := by
  intro l
  induction l with
  | nil => intro i _; rfl
  | cons it rest ih =>
    intro i h
    have hhead : itemValidB it = true := h it (List.mem_cons_self it rest)
    have htail : ∀ x ∈ rest, itemValidB x = true := fun x hx => h x (List.mem_cons_of_mem _ hx)
    simp [normMap, normOne_ok i it hhead, ih (i+1) htail, normValidList]

theorem normValidList_length : ∀ (l : List RawItem) (i : Nat),
    (normValidList i l).length = l.length := by
  intro l
  induction l with
  | nil => intro i; rfl
  | cons it rest ih => intro i; simp [normValidList, ih (i+1)]

theorem normValidList_get : ∀ (l : List RawItem) (i j : Nat) (hj : j < l.length)
    (hj2 : j < (normValidList i l).length),
    (normValidList i l).get ⟨j, hj2⟩ = normValid (i + j) (l.get ⟨j, hj⟩) := by
  intro l
  induction l with
  | nil => intro i j hj _; exact absurd hj (by simp)
  | cons it rest ih =>
    intro i j hj hj2
    cases j with
    | zero => simp [normValidList]
    | succ j =>
      have hj3 : j < rest.length := by simpa using hj
      have hj4 : j < (normValidList (i+1) rest).length := by
        rw [normValidList_length]; exact hj3
      have := ih (i+1) j hj3 hj4
      simp only [normValidList, List.get_cons_succ]
      rw [this]
      congr 1
      omega

theorem normValidList_mem_matches : ∀ (l : List RawItem) (i : Nat),
    (∀ it ∈ l, itemValidB it = true) →
    (∀ it ∈ l, amountFitsFixed (priceVal it)) →
    ∀ x ∈ normValidList i l, matchesAmountRegex x.unit_amount.value = true := by
  intro l
  induction l with
  | nil => intro i _ _ x hx; exact absurd hx (by simp [normValidList])
  | cons it rest ih =>
    intro i h hb x hx
    rcases List.mem_cons.mp hx with hx0 | hx1
    · subst hx0
      have hp : priceOkB it = true := (itemValidB_parts it (h it (List.mem_cons_self it rest))).2.1
      exact amountToString_matches _ (le_of_lt (priceVal_pos it hp))
        (hb it (List.mem_cons_self it rest))
    · exact ih (i+1) (fun y hy => h y (List.mem_cons_of_mem _ hy))
        (fun y hy => hb y (List.mem_cons_of_mem _ hy)) x hx1

theorem normValidList_values : ∀ (l : List RawItem) (i : Nat),
    (normValidList i l).map (fun x => x.unit_amount.value) =
      l.map (fun it => amountToString (priceVal it)) := by
  intro l
  induction l with
  | nil => intro i; rfl
  | cons it rest ih => intro i; simp [normValidList, normValid, ih (i+1)]

theorem normMap_err_of_invalid : ∀ (l : List RawItem) (i : Nat),
    (∃ it ∈ l, itemValidB it = false) →
    ∃ j, ∃ hj : j < l.length, itemValidB (l.get ⟨j, hj⟩) = false ∧
      normMap i l = Except.error (itemErrMsg (i + j) (l.get ⟨j, hj⟩)) := by
  intro l
  induction l with
  | nil =>
    intro i h
    obtain ⟨it, hmem, _⟩ := h
    exact absurd hmem (by simp)
  | cons it rest ih =>
    intro i h
    cases hv : itemValidB it with
    | false =>
      refine ⟨0, by simp, ?_, ?_⟩
      · simpa using hv
      · simp [normMap, normOne_err i it hv]
    | true =>
      have hrest : ∃ x ∈ rest, itemValidB x = false := by
        obtain ⟨x, hmem, hx⟩ := h
        rcases List.mem_cons.mp hmem with h0 | h1
        · subst h0; rw [hv] at hx; exact absurd hx (by decide)
        · exact ⟨x, h1, hx⟩
      obtain ⟨j, hj, hbad, heq⟩ := ih (i+1) hrest
      refine ⟨j+1, by simpa using Nat.succ_lt_succ hj, ?_, ?_⟩
      · simpa using hbad
      · have harith : i + 1 + j = i + (j + 1) := by omega
        simp only [normMap, normOne_ok i it hv, heq, List.get_cons_succ]
        rw [harith]

theorem normalizeItems_err_of_malformed (ci : CartInput) (h : malformedCart ci) :
    ∃ msg, normalizeItems ci = Except.error msg := by
  cases ci with
  | missing => exact ⟨_, rfl⟩
  | notArray => exact ⟨_, rfl⟩
  | arr l =>
    cases l with
    | nil => exact ⟨_, rfl⟩
    | cons a rest =>
      have hx : ∃ it ∈ a :: rest, itemValidB it = false := h
      obtain ⟨j, hj, _, heq⟩ := normMap_err_of_invalid (a :: rest) 0 hx
      exact ⟨_, heq⟩

/-! ## Claims -/

/-- Claim C1, counterexample.  The claim says normalize renders
unit_amount.value by exact round-half-up on price times 100; at the price
1.005 exact round-half-up gives 1.01, but the code renders 1.00, because
Math.round acts on the binary64 product 1.005 * 100 = 100.49999999999999. -/
theorem C1_counterexample :
    Except.map (List.map (fun it => it.unit_amount.value))
      (normalizeItems (CartInput.arr [itemC1005])) = Except.ok ["1.00"] ∧
    specHalfUpValue ⟨1005, 1000, by decide⟩ = "1.01" ∧ ("1.00" : String) ≠ "1.01" :=
  ⟨rfl, by decide, by decide⟩

/-- Claim C1, amended.  normalize renders unit_amount.value by applying
Math.round to the binary64 product price * 100 and formatting the quotient by
100 to two decimals (amountToString); this agrees with exact half-up rounding
whenever the double product does not fall on the other side of the half-cent,
so 5.005 still renders 5.01, the example cart still totals 25.01, and 9.999
renders 10.00, but 1.005 renders 1.00. -/
theorem C1_amended :
    (∀ l, l ≠ [] → allValid l →
      Except.map (List.map (fun it => it.unit_amount.value)) (normalizeItems (CartInput.arr l)) =
        Except.ok (l.map (fun it => amountToString (priceVal it)))) ∧
    amountToString (dbl 5005 1000 (by decide)) = "5.01" ∧
    amountToString (dbl 9999 1000 (by decide)) = "10.00" ∧
    amountToString (dbl 1005 1000 (by decide)) = "1.00" ∧
    Except.map calculateOrderTotal (normalizeItems (CartInput.arr cartAB)) = Except.ok "25.01" := by
  refine ⟨?_, by decide, by decide, by decide, rfl⟩
  intro l hne hval
  cases l with
  | nil => exact absurd rfl hne
  | cons a rest =>
    show Except.map _ (normMap 0 (a :: rest)) = _
    rw [normMap_ok _ 0 hval]
    show Except.ok ((normValidList 0 (a :: rest)).map _) = _
    rw [normValidList_values]

/-- Witness for the amended claim C1 at the one-item cart of the spec's
end-to-end scenario. -/
theorem C1_amended_witness :
    ([itemPlan39] ≠ ([] : List RawItem)) ∧ allValid [itemPlan39] ∧
    Except.map (List.map (fun it => it.unit_amount.value))
      (normalizeItems (CartInput.arr [itemPlan39])) =
      Except.ok ([itemPlan39].map (fun it => amountToString (priceVal it))) :=
  ⟨by simp, by decide, C1_amended.1 [itemPlan39] (by simp) (by decide)⟩

/-- Claim C2, counterexample.  A malformed cart (here the empty cart) is
answered with HTTP status 500, which is not a 400-class status. -/
theorem C2_counterexample :
    (postOrders gwStub (CartInput.arr [])).2.status = 500 ∧
    ¬ is4xx (postOrders gwStub (CartInput.arr [])).2.status :=
  ⟨rfl, by decide⟩

/-- Claim C2, amended.  For every malformed cart input the response has
status 500 (the error middleware's default, since the validation errors carry
no status property) together with a nonempty message body and no paypal
field, and no gateway call is made. -/
theorem C2_amended (gw : Gateway) (ci : CartInput) (h : malformedCart ci) :
    ∃ m, m ≠ "" ∧ postOrders gw ci = ([], ⟨500, RespBody.errJson m none⟩) := by
  obtain ⟨msg, herr⟩ := normalizeItems_err_of_malformed ci h
  refine ⟨if msg = "" then "Unexpected server error." else msg, ?_, ?_⟩
  · by_cases hm : msg = ""
    · rw [if_pos hm]; decide
    · rw [if_neg hm]; exact hm
  · simp [postOrders, herr, errorMiddleware]

/-- Witness for the amended claim C2 at the empty cart. -/
theorem C2_amended_witness :
    malformedCart (CartInput.arr []) ∧
    ∃ m, m ≠ "" ∧ postOrders gwStub (CartInput.arr []) = ([], ⟨500, RespBody.errJson m none⟩) :=
  ⟨trivial, C2_amended gwStub (CartInput.arr []) trivial⟩

/-- Claim C3, counterexample.  The item with name A, price 2^70 and quantity 1
satisfies every validity condition of the claim (non-empty name, finite price
greater than 0, positive integer quantity) and normalize succeeds on it, but
its rendered unit_amount.value is the exponential-notation string
1.1805916207174113e+21 (ECMAScript toFixed returns ToString for amounts at or
above 10^21), which does not match the regular expression d+ dot dd. -/
theorem C3_counterexample :
    allValid [itemHuge] ∧
    Except.map (List.map (fun it => it.unit_amount.value))
      (normalizeItems (CartInput.arr [itemHuge])) =
      Except.ok ["1.1805916207174113e+21"] ∧
    Except.map (List.map (fun it => matchesAmountRegex it.unit_amount.value))
      (normalizeItems (CartInput.arr [itemHuge])) = Except.ok [false] :=
  ⟨by decide, rfl, rfl⟩

/-- Claim C3, amended.  For every nonempty all-valid cart item list in which
every item's cent-rounded amount is below 10^21 (the threshold at which
ECMAScript toFixed switches to exponential ToString notation) and every
quantity is below 10^21 (the threshold at which String switches to
exponential notation for integers), normalize succeeds; the output has the
input's length, the item at each position is the normalization of the input
item at the same position (order preserved), and every unit_amount.value
matches the regular expression d+ dot dd. -/
theorem C3_amended_shape (l : List RawItem) (hne : l ≠ []) (h : allValid l)
    (hb : ∀ it ∈ l, amountFitsFixed (priceVal it) ∧ qtyVal it < 10 ^ 21) :
    ∃ out, normalizeItems (CartInput.arr l) = Except.ok out ∧
      out.length = l.length ∧
      (∀ j (hj : j < l.length) (hj2 : j < out.length),
        out.get ⟨j, hj2⟩ = normValid j (l.get ⟨j, hj⟩)) ∧
      (∀ x ∈ out, matchesAmountRegex x.unit_amount.value = true) := by
  cases l with
  | nil => exact absurd rfl hne
  | cons a rest =>
    refine ⟨normValidList 0 (a :: rest), ?_, normValidList_length _ 0, ?_, ?_⟩
    · show normMap 0 (a :: rest) = _
      exact normMap_ok _ 0 h
    · intro j hj hj2
      simpa using normValidList_get (a :: rest) 0 j hj hj2
    · exact normValidList_mem_matches _ 0 h (fun it hit => (hb it hit).1)

/-- Witness for the amended claim C3 at the two-item example cart. -/
theorem C3_amended_shape_witness :
    (cartAB ≠ []) ∧ allValid cartAB ∧
    (∀ it ∈ cartAB, amountFitsFixed (priceVal it) ∧ qtyVal it < 10 ^ 21) ∧
    ∃ out, normalizeItems (CartInput.arr cartAB) = Except.ok out ∧
      out.length = cartAB.length ∧
      (∀ j (hj : j < cartAB.length) (hj2 : j < out.length),
        out.get ⟨j, hj2⟩ = normValid j (cartAB.get ⟨j, hj⟩)) ∧
      (∀ x ∈ out, matchesAmountRegex x.unit_amount.value = true) :=
  ⟨by simp [cartAB], by decide, by decide,
    C3_amended_shape cartAB (by simp [cartAB]) (by decide) (by decide)⟩

/-- Claim C4.  The order request sets amount.value and
amount.breakdown.item_total.value of its single purchase unit to the same
string: the 2-decimal rendering of the reduce-sum of unit_amount.value times
quantity over the items. -/
theorem C4_totals_equal (items : List NormalizedItem) :
    ((orderPayload items).purchase_units.map (fun pu => pu.amount.value) =
      [calculateOrderTotal items]) ∧
    ((orderPayload items).purchase_units.map (fun pu => pu.amount.breakdown.item_total.value) =
      [calculateOrderTotal items]) ∧
    calculateOrderTotal items = amountToString (cartSum items) :=
  ⟨rfl, rfl, rfl⟩

/-- Claim C5.  For a missing, non-array or empty items input, the create
order handler fails with the validation message about missing cart items and
makes no gateway call at all (no token request, no order-create request). -/
theorem C5_empty_cart_no_gateway (gw : Gateway) (ci : CartInput)
    (h : ci = CartInput.missing ∨ ci = CartInput.notArray ∨ ci = CartInput.arr []) :
    postOrders gw ci = ([], ⟨500, RespBody.errJson "Missing cart items." none⟩) := by
  rcases h with h | h | h <;> subst h <;> rfl

/-- Witness for claim C5 at the empty cart. -/
theorem C5_empty_cart_no_gateway_witness :
    (CartInput.arr [] = CartInput.missing ∨ CartInput.arr [] = CartInput.notArray ∨
      CartInput.arr ([] : List RawItem) = CartInput.arr []) ∧
    postOrders gwStub (CartInput.arr []) = ([], ⟨500, RespBody.errJson "Missing cart items." none⟩) :=
  ⟨Or.inr (Or.inr rfl), C5_empty_cart_no_gateway gwStub (CartInput.arr []) (Or.inr (Or.inr rfl))⟩

/-- Claim C6.  Whenever some item has an invalid price, normalize fails with
the validation message of the first invalid item (identified by position or
name) and, the result being an error and not a list, produces no partial
output. -/
theorem C6_invalid_price_rejected (l : List RawItem) (h : ∃ it ∈ l, priceOkB it = false) :
    ∃ j, ∃ hj : j < l.length, itemValidB (l.get ⟨j, hj⟩) = false ∧
      normalizeItems (CartInput.arr l) = Except.error (itemErrMsg j (l.get ⟨j, hj⟩)) := by
  have hx : ∃ it ∈ l, itemValidB it = false := by
    obtain ⟨it, hmem, hp⟩ := h
    exact ⟨it, hmem, by simp [itemValidB, hp]⟩
  cases l with
  | nil => obtain ⟨it, hmem, _⟩ := hx; exact absurd hmem (by simp)
  | cons a rest =>
    obtain ⟨j, hj, hbad, heq⟩ := normMap_err_of_invalid (a :: rest) 0 hx
    refine ⟨j, hj, hbad, ?_⟩
    show normMap 0 (a :: rest) = _
    simpa using heq

/-- Witness for claim C6 at a one-item cart whose price is zero. -/
theorem C6_invalid_price_rejected_witness :
    (∃ it ∈ [itemBadPrice], priceOkB it = false) ∧
    ∃ j, ∃ hj : j < ([itemBadPrice] : List RawItem).length,
      itemValidB (([itemBadPrice] : List RawItem).get ⟨j, hj⟩) = false ∧
      normalizeItems (CartInput.arr [itemBadPrice]) =
        Except.error (itemErrMsg j (([itemBadPrice] : List RawItem).get ⟨j, hj⟩)) :=
  ⟨by decide, C6_invalid_price_rejected [itemBadPrice] (by decide)⟩

/-- Claim C7.  Capture summary extraction is total by construction (optional
chaining is Option.bind), and on the empty payload it yields every field
undefined and an empty items list. -/
theorem C7_summarize_empty_total :
    extractCaptureSummary emptyCapturePayload =
      ⟨none, none, none, none, none, none, none, none, [], none, none⟩ := rfl

/-- Claim C8.  Whenever the gateway capture call succeeds, the capture
handler responds 200 with the raw capture payload unchanged, for every
filesystem outcome: persistence failures (mkdir or append) are swallowed and
never reach the payer-facing response. -/
theorem C8_persistence_never_blocks_response (gw : Gateway) (fs : FsOutcome)
    (now orderId : String) (p : CapturePayload) (hc : gw.credsPresent = true)
    (ht : gw.tokenOk = true) (hcap : gw.captureResult orderId = Except.ok p) :
    (postCapture gw fs now orderId).2.1 = ⟨200, RespBody.captureJson p⟩ := by
  simp [postCapture, tokenStep, hc, ht, hcap]

/-- Witness for claim C8: a successful capture with a failing append still
responds 200 with the payload. -/
theorem C8_persistence_never_blocks_response_witness :
    gwCap.credsPresent = true ∧ gwCap.tokenOk = true ∧
    gwCap.captureResult "O1" = Except.ok capPayload1 ∧
    (postCapture gwCap FsOutcome.appendFail "2026-10-12T00:00:00Z" "O1").2.1 =
      ⟨200, RespBody.captureJson capPayload1⟩ :=
  ⟨rfl, rfl, rfl,
    C8_persistence_never_blocks_response gwCap FsOutcome.appendFail "2026-10-12T00:00:00Z" "O1"
      capPayload1 rfl rfl rfl⟩

/-- Claim C9.  The capture summary depends only on the first purchase unit
and on that unit's first capture entry: truncating everything after them
never changes the summary. -/
theorem C9_only_first_unit_first_capture (p : CapturePayload) :
    extractCaptureSummary (truncatePayload p) = extractCaptureSummary p := by
  obtain ⟨pid, pus, payer⟩ := p
  cases pus with
  | none => rfl
  | some us =>
    cases us with
    | nil => rfl
    | cons u rest =>
      obtain ⟨pay, items⟩ := u
      cases pay with
      | none => rfl
      | some pm =>
        obtain ⟨caps⟩ := pm
        cases caps with
        | none => rfl
        | some cs =>
          cases cs with
          | nil => rfl
          | cons c cs2 => rfl

/-- Claim C10.  For every nonempty all-valid cart, normalize succeeds and the
item at 1-based position n carries reference_id equal to the supplied id, or
ITEM-n when the id is absent. -/
theorem C10_reference_id (l : List RawItem) (hne : l ≠ []) (h : allValid l) :
    ∃ out, normalizeItems (CartInput.arr l) = Except.ok out ∧
      ∀ j (hj : j < l.length) (hj2 : j < out.length),
        (out.get ⟨j, hj2⟩).reference_id =
          (l.get ⟨j, hj⟩).id.getD ("ITEM-" ++ natToStr (j+1)) := by
  cases l with
  | nil => exact absurd rfl hne
  | cons a rest =>
    refine ⟨normValidList 0 (a :: rest), ?_, ?_⟩
    · show normMap 0 (a :: rest) = _
      exact normMap_ok _ 0 h
    · intro j hj hj2
      rw [normValidList_get (a :: rest) 0 j hj hj2]
      simp [normValid]

/-- Witness for claim C10 at a cart with one supplied id and one absent id. -/
theorem C10_reference_id_witness :
    (cartID ≠ []) ∧ allValid cartID ∧
    ∃ out, normalizeItems (CartInput.arr cartID) = Except.ok out ∧
      ∀ j (hj : j < cartID.length) (hj2 : j < out.length),
        (out.get ⟨j, hj2⟩).reference_id =
          (cartID.get ⟨j, hj⟩).id.getD ("ITEM-" ++ natToStr (j+1)) :=
  ⟨by simp [cartID], by decide, C10_reference_id cartID (by simp [cartID]) (by decide)⟩
